import Mathlib

/-
Shallow embedding of `src/helpers/StatsClient.ts` (mediarithmics plugins
node SDK): an in-process metrics aggregation buffer.

Modelling choices:
* JavaScript numbers are modelled as `Int`; the claims under study involve
  only addition and the constant zero, where machine floats and integers
  agree on the inputs considered.
* A tag map (`Tags` from hot-shots, used in its object form
  `{ [key: string]: string }`) is modelled as an association list in
  insertion order, since JavaScript objects preserve string-key insertion
  order and `JSON.stringify` serializes keys in that order.
* `JSON.stringify(options.tags)` is modelled by `stringifyTags`; for an
  absent (`undefined`) tag map `JSON.stringify` returns `undefined`, which
  the string concatenation `metricName + '/' + ...` coerces to the text
  "undefined", so `stringifyTags none = "undefined"`.
* The JavaScript `Map<string, MetricOptions>` is modelled as a list of
  key/value pairs in insertion order (`msGet`, `msSet`, `msHas` mirror
  `Map.get`, `Map.set`, `Map.has`: `set` overwrites in place, else appends).
* Exceptions thrown by the StatsD transport calls (`client.gauge`,
  `client.increment`) are modelled by an oracle `ok : EmitCall → Bool`
  deciding whether a given call returns normally (`true`) or throws
  (`false`); a throw propagates out of the `forEach` in `sendStats`, which
  the model records in the `aborted` field of `FlushResult`.
-/

namespace StatsTs

/-- `MetricsType` enum of the source: `GAUGE = 'gauge'`, `INCREMENT = 'increment'`. -/
inductive MetricsType where
  | GAUGE
  | INCREMENT
deriving DecidableEq, Repr

/-- A tag map in insertion order (hot-shots `Tags`, object form). -/
abbrev Tags := List (String × String)

/-- The `MetricOptions` interface of the source. -/
structure MetricOptions where
  metricName : String
  type : MetricsType
  value : Int
  tags : Option Tags
deriving DecidableEq, Repr

/-- The `MetricsSet` type of the source (`Map<string, MetricOptions>`),
as an insertion-ordered association list. -/
abbrev MetricsSet := List (String × MetricOptions)

/-- `JSON.stringify` on an optional tag map, composed with JavaScript's
string coercion of `undefined` (see header comment). -/
def stringifyTags : Option Tags → String
  | none => "undefined"
  | some ps =>
      "\x7b" ++ String.intercalate ","
        (ps.map (fun p => "\"" ++ p.1 ++ "\":\"" ++ p.2 ++ "\"")) ++ "\x7d"

/-- The object spread `{ ...tags }`: spreading `undefined` yields `{}`. -/
def spreadTags : Option Tags → Tags
  | none => []
  | some ps => ps

/-- `Map.has` on the modelled `MetricsSet`. -/
def msHas : MetricsSet → String → Bool
  | [], _ => false
  | p :: rest, k => if p.1 = k then true else msHas rest k

/-- `Map.get` on the modelled `MetricsSet`. -/
def msGet : MetricsSet → String → Option MetricOptions
  | [], _ => none
  | p :: rest, k => if p.1 = k then some p.2 else msGet rest k

/-- `Map.set` on the modelled `MetricsSet`: overwrite in place when the key
is present, append otherwise. -/
def msSet (m : MetricsSet) (k : String) (v : MetricOptions) : MetricsSet :=
  if msHas m k then m.map (fun p => if p.1 = k then (k, v) else p)
  else m ++ [(k, v)]

/-- The keys of the store are pairwise distinct (always true of a real
JavaScript `Map`; states it for the association-list model). -/
def msNodupKeys (m : MetricsSet) : Prop := (m.map Prod.fst).Nodup

instance (m : MetricsSet) : Decidable (msNodupKeys m) := by
  unfold msNodupKeys; infer_instance

/-- The `customKey` derivation of `addOrUpdateMetrics` (line 100):
`metricName + '/' + JSON.stringify(options.tags)`, where `metricName` is
the batch key. -/
def customKey (metricName : String) (tags : Option Tags) : String :=
  metricName ++ "/" ++ stringifyTags tags

/-- The body of the `forEach` in `StatsClient.addOrUpdateMetrics`
(lines 99–117), for one batch entry `[metricName, options]` of
`Object.entries(metrics)`. -/
def addOrUpdateOne (m : MetricsSet) (metricName : String) (options : MetricOptions) : MetricsSet :=
  let key := customKey metricName options.tags
  if msHas m key then
    match msGet m key with
    | some metricOptions =>
        msSet m key
          { metricName := metricName
            type := metricOptions.type
            value := metricOptions.value + options.value
            tags := some (spreadTags options.tags) }
    | none => m
  else
    msSet m key
      { metricName := metricName
        type := options.type
        value := options.value
        tags := options.tags }

/-- `StatsClient.addOrUpdateMetrics`: fold the batch (in `Object.entries`
order) through `addOrUpdateOne`. -/
def addOrUpdateMetrics (m : MetricsSet) (metrics : List (String × MetricOptions)) : MetricsSet :=
  metrics.foldl (fun acc p => addOrUpdateOne acc p.1 p.2) m

/-- A sequence of `addOrUpdateMetrics` calls (no flush in between). -/
def runUpdates (m : MetricsSet) (batches : List (List (String × MetricOptions))) : MetricsSet :=
  batches.foldl addOrUpdateMetrics m

/-- One call made to the StatsD transport client during a flush. -/
inductive EmitCall where
  | gauge (name : String) (value : Int) (tags : Tags)
  | increment (name : String) (value : Int) (tags : Tags)
deriving DecidableEq, Repr

/-- The transport call `sendStats` makes for a given entry's options. -/
def emitCallOf (options : MetricOptions) : EmitCall :=
  if options.type = MetricsType.GAUGE then
    EmitCall.gauge options.metricName options.value (spreadTags options.tags)
  else
    EmitCall.increment options.metricName options.value (spreadTags options.tags)

/-- `StatsClient.resetIncrementMetric` (lines 131–139). The source casts
`get(customKey) as MetricOptions`; the key is always present at call
sites, so the impossible `none` branch leaves the map unchanged. -/
def resetIncrementMetric (m : MetricsSet) (customKey metricName : String) : MetricsSet :=
  match msGet m customKey with
  | some metricOptions =>
      msSet m customKey
        { metricName := metricName
          type := metricOptions.type
          value := 0
          tags := some (spreadTags metricOptions.tags) }
  | none => m

/-- Outcome of one `sendStats` run: the metrics map afterwards, the
transport calls attempted in order, and whether an exception thrown by a
transport call propagated out (aborting the iteration). -/
structure FlushResult where
  metrics : MetricsSet
  emits : List EmitCall
  aborted : Bool
deriving DecidableEq, Repr

/-- The `forEach` of `StatsClient.sendStats` (lines 120–129), iterating
over the up-front snapshot `[...this.metrics.entries()]` while mutating
the live map; `ok` decides whether each transport call returns or throws
(a throw aborts the remaining iteration). -/
def sendStatsAux (ok : EmitCall → Bool) :
    List (String × MetricOptions) → MetricsSet → List EmitCall → FlushResult
  | [], live, acc => ⟨live, acc.reverse, false⟩
  | (customKey, options) :: rest, live, acc =>
      if options.type = MetricsType.GAUGE then
        let c := EmitCall.gauge options.metricName options.value (spreadTags options.tags)
        if ok c then sendStatsAux ok rest live (c :: acc)
        else ⟨live, (c :: acc).reverse, true⟩
      else
        let c := EmitCall.increment options.metricName options.value (spreadTags options.tags)
        if ok c then
          sendStatsAux ok rest (resetIncrementMetric live customKey options.metricName) (c :: acc)
        else ⟨live, (c :: acc).reverse, true⟩

/-- `StatsClient.sendStats`: snapshot the entries, then iterate. -/
def sendStats (ok : EmitCall → Bool) (m : MetricsSet) : FlushResult :=
  sendStatsAux ok m m []

/-- The state a constructed `StatsClient` instance owns: its ledger, its
flush interval, and the transport protocol choice
(`environement === 'production' → 'uds'`). -/
structure StatsClientInst where
  metrics : MetricsSet
  timerInMs : Nat
  clientUdsProtocol : Bool
deriving DecidableEq, Repr

/-- Process-wide state around the static singleton: the
`StatsClient.instance` field plus counters of how many flush timers and
transport clients have ever been constructed. -/
structure GlobalState where
  inst : Option StatsClientInst
  timersCreated : Nat
  clientsCreated : Nat
deriving DecidableEq, Repr

/-- JavaScript truthiness of the `environement : string | undefined`
designator: defined and non-empty. -/
def truthy : Option String → Bool
  | none => false
  | some s => if s = "" then false else true

/-- The private `StatsClient` constructor (lines 59–69): fresh empty
ledger, a new StatsD client (uds protocol iff production), and — since
`this.interval` is undefined on a fresh instance — a new flush timer. -/
def construct (timerInMs : Nat) (environement : Option String) (g : GlobalState) :
    StatsClientInst × GlobalState :=
  let inst : StatsClientInst :=
    { metrics := []
      timerInMs := timerInMs
      clientUdsProtocol := decide (environement = some "production") }
  (inst,
    { inst := some inst
      timersCreated := g.timersCreated + 1
      clientsCreated := g.clientsCreated + 1 })

/-- `StatsClient.init` (lines 80–88): with a truthy designator, return the
existing singleton or construct it; with a falsy one, return `undefined`. -/
def init (timerInMs : Nat) (environement : Option String) (g : GlobalState) :
    Option StatsClientInst × GlobalState :=
  if truthy environement then
    match g.inst with
    | some i => (some i, g)
    | none =>
        let r := construct timerInMs environement g
        (some r.1, r.2)
  else (none, g)

/-! ### Basic lemmas about the modelled `Map` operations -/

/-- `msHas` agrees with `msGet`. -/
theorem msHas_eq_isSome (m : MetricsSet) (k : String) : msHas m k = (msGet m k).isSome := by
  induction m with
  | nil => rfl
  | cons p rest ih =>
      by_cases hp : p.1 = k
      · simp [msHas, msGet, hp]
      · simp [msHas, msGet, hp, ih]

theorem msHas_false_not_mem {m : MetricsSet} {k : String} (h : msHas m k = false) :
    ∀ p ∈ m, p.1 ≠ k := by
  induction m with
  | nil => intro p hp; cases hp
  | cons q rest ih =>
      by_cases hq : q.1 = k
      · simp [msHas, hq] at h
      · intro p hp
        rcases List.mem_cons.mp hp with rfl | hp
        · exact hq
        · exact ih (by simpa [msHas, hq] using h) p hp

theorem msGet_none_not_mem {m : MetricsSet} {k : String} (h : msGet m k = none) :
    ∀ p ∈ m, p.1 ≠ k :=
  msHas_false_not_mem (by rw [msHas_eq_isSome, h]; rfl)

theorem msGet_map_set_self {m : MetricsSet} {k : String} (v : MetricOptions)
    (h : msHas m k = true) :
    msGet (m.map (fun p => if p.1 = k then (k, v) else p)) k = some v := by
  induction m with
  | nil => simp [msHas] at h
  | cons p rest ih =>
      by_cases hp : p.1 = k
      · simp [msGet, hp]
      · simp only [List.map_cons, if_neg hp, msGet, if_neg hp]
        exact ih (by simpa [msHas, hp] using h)

theorem msGet_append_self {m : MetricsSet} {k : String} (v : MetricOptions)
    (h : msHas m k = false) :
    msGet (m ++ [(k, v)]) k = some v := by
  induction m with
  | nil => simp [msGet]
  | cons p rest ih =>
      by_cases hp : p.1 = k
      · simp [msHas, hp] at h
      · simp only [List.cons_append, msGet, if_neg hp]
        exact ih (by simpa [msHas, hp] using h)

theorem msGet_msSet_self (m : MetricsSet) (k : String) (v : MetricOptions) :
    msGet (msSet m k v) k = some v := by
  cases hh : msHas m k with
  | true => simpa [msSet, hh] using msGet_map_set_self v hh
  | false => simpa [msSet, hh] using msGet_append_self v hh

theorem msGet_map_set_ne {m : MetricsSet} {k k' : String} (v : MetricOptions)
    (h : k' ≠ k) :
    msGet (m.map (fun p => if p.1 = k then (k, v) else p)) k' = msGet m k' := by
  induction m with
  | nil => rfl
  | cons p rest ih =>
      by_cases hp : p.1 = k
      · simp [msGet, hp, Ne.symm h, ih]
      · simp [msGet, hp, ih]

theorem msGet_append_ne {m : MetricsSet} {k k' : String} (v : MetricOptions)
    (h : k' ≠ k) :
    msGet (m ++ [(k, v)]) k' = msGet m k' := by
  induction m with
  | nil => simp [msGet, Ne.symm h]
  | cons p rest ih => simp [msGet, ih]

theorem msGet_msSet_ne (m : MetricsSet) {k k' : String} (v : MetricOptions) (h : k' ≠ k) :
    msGet (msSet m k v) k' = msGet m k' := by
  cases hh : msHas m k with
  | true => simpa [msSet, hh] using msGet_map_set_ne v h
  | false => simpa [msSet, hh] using msGet_append_ne v h

theorem mem_msSet {m : MetricsSet} {k : String} {v : MetricOptions}
    {p : String × MetricOptions} (h : p ∈ msSet m k v) :
    p = (k, v) ∨ (p ∈ m ∧ p.1 ≠ k) := by
  cases hh : msHas m k with
  | true =>
      simp only [msSet, hh, if_true] at h
      obtain ⟨q, hq, hfq⟩ := List.mem_map.mp h
      by_cases hqk : q.1 = k
      · rw [if_pos hqk] at hfq
        exact Or.inl hfq.symm
      · rw [if_neg hqk] at hfq
        exact Or.inr ⟨hfq ▸ hq, hfq ▸ hqk⟩
  | false =>
      simp only [msSet, hh, Bool.false_eq_true, if_false] at h
      rcases List.mem_append.mp h with hm | hm
      · exact Or.inr ⟨hm, msHas_false_not_mem hh p hm⟩
      · simp only [List.mem_singleton] at hm
        exact Or.inl hm

theorem msGet_unique {m : MetricsSet} {k : String} {o : MetricOptions}
    (hnd : msNodupKeys m) (hget : msGet m k = some o) :
    ∀ p ∈ m, p.1 = k → p.2 = o := by
  induction m with
  | nil => intro p hp; cases hp
  | cons q rest ih =>
      obtain ⟨hq_not, hnd'⟩ := List.nodup_cons.mp hnd
      intro p hp hpk
      rcases List.mem_cons.mp hp with rfl | hp
      · rw [msGet, if_pos hpk] at hget
        exact Option.some.inj hget
      · by_cases hqk : q.1 = k
        · exact absurd (hqk ▸ hpk ▸ List.mem_map_of_mem Prod.fst hp) hq_not
        · rw [msGet, if_neg hqk] at hget
          exact ih hnd' hget p hp hpk

/-! ### Characterizing one `addOrUpdateMetrics` step -/

theorem addOrUpdateOne_present {m : MetricsSet} {name : String} {opts e : MetricOptions}
    (h : msGet m (customKey name opts.tags) = some e) :
    addOrUpdateOne m name opts
      = msSet m (customKey name opts.tags)
          ⟨name, e.type, e.value + opts.value, some (spreadTags opts.tags)⟩ := by
  have hh : msHas m (customKey name opts.tags) = true := by
    rw [msHas_eq_isSome, h]; rfl
  simp [addOrUpdateOne, hh, h]

theorem addOrUpdateOne_absent {m : MetricsSet} {name : String} {opts : MetricOptions}
    (h : msGet m (customKey name opts.tags) = none) :
    addOrUpdateOne m name opts
      = msSet m (customKey name opts.tags) ⟨name, opts.type, opts.value, opts.tags⟩ := by
  have hh : msHas m (customKey name opts.tags) = false := by
    rw [msHas_eq_isSome, h]; rfl
  simp [addOrUpdateOne, hh]

/-! ### Lemmas about `resetIncrementMetric` -/

theorem msGet_reset_ne (live : MetricsSet) (k0 n : String) {k : String} (h : k ≠ k0) :
    msGet (resetIncrementMetric live k0 n) k = msGet live k := by
  unfold resetIncrementMetric
  cases hg : msGet live k0
  · rfl
  · exact msGet_msSet_ne live _ h

theorem mem_reset {live : MetricsSet} {k0 n : String} {p : String × MetricOptions}
    (h : p ∈ resetIncrementMetric live k0 n) :
    (p.1 = k0 ∧ p.2.value = 0) ∨ (p ∈ live ∧ p.1 ≠ k0) := by
  rcases hg : msGet live k0 with _ | mo
  · simp only [resetIncrementMetric, hg] at h
    exact Or.inr ⟨h, msGet_none_not_mem hg p h⟩
  · simp only [resetIncrementMetric, hg] at h
    rcases mem_msSet h with rfl | ⟨hm, hne⟩
    · exact Or.inl ⟨rfl, rfl⟩
    · exact Or.inr ⟨hm, hne⟩

/-! ### The identity key -/

theorem customKey_inj {n : String} {t1 t2 : Option Tags}
    (h : customKey n t1 = customKey n t2) : stringifyTags t1 = stringifyTags t2 := by
  have hd : (n.data ++ "/".data) ++ (stringifyTags t1).data
      = (n.data ++ "/".data) ++ (stringifyTags t2).data := by
    simpa [customKey, String.data_append, List.append_assoc] using congrArg String.data h
  exact String.ext (List.append_cancel_left hd)

/-- A single-entry update step, read off `msGet`. -/
theorem addOrUpdateOne_get_present {m : MetricsSet} {name : String} {opts e : MetricOptions}
    (h : msGet m (customKey name opts.tags) = some e) :
    msGet (addOrUpdateOne m name opts) (customKey name opts.tags)
      = some ⟨name, e.type, e.value + opts.value, some (spreadTags opts.tags)⟩ := by
  rw [addOrUpdateOne_present h]
  exact msGet_msSet_self _ _ _

theorem addOrUpdateOne_get_absent {m : MetricsSet} {name : String} {opts : MetricOptions}
    (h : msGet m (customKey name opts.tags) = none) :
    msGet (addOrUpdateOne m name opts) (customKey name opts.tags)
      = some ⟨name, opts.type, opts.value, opts.tags⟩ := by
  rw [addOrUpdateOne_absent h]
  exact msGet_msSet_self _ _ _

/-! ### Claim theorems -/

/-- C1 counterexample: starting from an empty ledger, a Gauge update of
value 4 for identity ("queueDepth", shard=1) followed by a Gauge update of
value 7 for the same identity leaves stored value 11 — the second update
did not replace the stored value with 7; it added to it. -/
theorem gauge_merge_replacement_cex :
    (msGet (runUpdates []
        [[("queueDepth", ⟨"queueDepth", MetricsType.GAUGE, 4, some [("shard", "1")]⟩)],
         [("queueDepth", ⟨"queueDepth", MetricsType.GAUGE, 7, some [("shard", "1")]⟩)]])
      (customKey "queueDepth" (some [("shard", "1")]))).map MetricOptions.value = some 11
    ∧ ¬ ((msGet (runUpdates []
        [[("queueDepth", ⟨"queueDepth", MetricsType.GAUGE, 4, some [("shard", "1")]⟩)],
         [("queueDepth", ⟨"queueDepth", MetricsType.GAUGE, 7, some [("shard", "1")]⟩)]])
      (customKey "queueDepth" (some [("shard", "1")]))).map MetricOptions.value = some 7) := by
  decide

/-- C1 (amended): for a metric identity already present in the ledger, a
subsequent update with kind Gauge for that identity adds the new value to
the stored value (`stored.value += value`, exactly as for Counter), rather
than replacing it. -/
theorem gauge_merge_accumulates (m : MetricsSet) (name : String) (opts e : MetricOptions)
    (h : msGet m (customKey name opts.tags) = some e)
    (_hstored : e.type = MetricsType.GAUGE) (_hopts : opts.type = MetricsType.GAUGE) :
    (msGet (addOrUpdateOne m name opts) (customKey name opts.tags)).map MetricOptions.value
      = some (e.value + opts.value) := by
  rw [addOrUpdateOne_present h, msGet_msSet_self]
  rfl

/-- Witness for C1's amended theorem at the spec's own scenario inputs. -/
theorem gauge_merge_accumulates_witness :
    msGet (addOrUpdateMetrics [] [("queueDepth", ⟨"queueDepth", MetricsType.GAUGE, 4, some [("shard", "1")]⟩)])
        (customKey "queueDepth" (some [("shard", "1")]))
      = some ⟨"queueDepth", MetricsType.GAUGE, 4, some [("shard", "1")]⟩
    ∧ (⟨"queueDepth", MetricsType.GAUGE, 4, some [("shard", "1")]⟩ : MetricOptions).type = MetricsType.GAUGE
    ∧ (⟨"queueDepth", MetricsType.GAUGE, 7, some [("shard", "1")]⟩ : MetricOptions).type = MetricsType.GAUGE
    ∧ (msGet (addOrUpdateOne
          (addOrUpdateMetrics [] [("queueDepth", ⟨"queueDepth", MetricsType.GAUGE, 4, some [("shard", "1")]⟩)])
          "queueDepth" ⟨"queueDepth", MetricsType.GAUGE, 7, some [("shard", "1")]⟩)
        (customKey "queueDepth" (some [("shard", "1")]))).map MetricOptions.value = some (4 + 7) :=
  ⟨by decide, rfl, rfl,
    gauge_merge_accumulates
      (addOrUpdateMetrics [] [("queueDepth", ⟨"queueDepth", MetricsType.GAUGE, 4, some [("shard", "1")]⟩)])
      "queueDepth" ⟨"queueDepth", MetricsType.GAUGE, 7, some [("shard", "1")]⟩
      ⟨"queueDepth", MetricsType.GAUGE, 4, some [("shard", "1")]⟩ (by decide) rfl rfl⟩

/-- C2 counterexample: a batch entry with key "k" whose options carry
`metricName := "other"` is stored under the identity derived from the
batch key "k", with stored name "k"; nothing is stored under the identity
derived from "other" — so the batch key is used and the entry's own
`metricName` field is the one discarded. -/
theorem batch_key_discarded_cex :
    msGet (addOrUpdateMetrics [] [("k", ⟨"other", MetricsType.GAUGE, 1, none⟩)])
        (customKey "other" none) = none
    ∧ (msGet (addOrUpdateMetrics [] [("k", ⟨"other", MetricsType.GAUGE, 1, none⟩)])
        (customKey "k" none)).map MetricOptions.metricName = some "k" := by
  decide

/-- C2 (amended): the ledger merge uses the caller's batch key both as the
metric identity and as the stored name; the entry's own `metricName` field
is discarded (the result of an update step is independent of it). -/
theorem batch_key_is_identity (m : MetricsSet) (k s : String) (opts : MetricOptions) :
    addOrUpdateOne m k { opts with metricName := s } = addOrUpdateOne m k opts
    ∧ (msGet (addOrUpdateOne m k opts) (customKey k opts.tags)).map MetricOptions.metricName
        = some k := by
  constructor
  · cases opts
    rfl
  · cases hg : msGet m (customKey k opts.tags)
    · rw [addOrUpdateOne_absent hg, msGet_msSet_self]
      rfl
    · rw [addOrUpdateOne_present hg, msGet_msSet_self]
      rfl

/-- C9: for an identity already in the ledger, an update (of any supplied
kind, in particular a different one) leaves the stored kind unchanged as
the first-seen kind, and merges the value arithmetically. -/
theorem kind_fixed_value_merged (m : MetricsSet) (name : String) (opts e : MetricOptions)
    (h : msGet m (customKey name opts.tags) = some e) :
    ∃ e', msGet (addOrUpdateOne m name opts) (customKey name opts.tags) = some e'
      ∧ e'.type = e.type ∧ e'.value = e.value + opts.value := by
  refine ⟨⟨name, e.type, e.value + opts.value, some (spreadTags opts.tags)⟩, ?_, rfl, rfl⟩
  exact addOrUpdateOne_get_present h

/-- Witness for C9: a stored Gauge entry updated with kind Counter keeps
kind Gauge and gets the value added. -/
theorem kind_fixed_value_merged_witness :
    msGet [("n/undefined", ⟨"n", MetricsType.GAUGE, 5, none⟩)] (customKey "n" none)
      = some ⟨"n", MetricsType.GAUGE, 5, none⟩
    ∧ ∃ e', msGet (addOrUpdateOne [("n/undefined", ⟨"n", MetricsType.GAUGE, 5, none⟩)]
          "n" ⟨"n", MetricsType.INCREMENT, 3, none⟩) (customKey "n" none) = some e'
        ∧ e'.type = (⟨"n", MetricsType.GAUGE, 5, none⟩ : MetricOptions).type
        ∧ e'.value = (⟨"n", MetricsType.GAUGE, 5, none⟩ : MetricOptions).value
            + (⟨"n", MetricsType.INCREMENT, 3, none⟩ : MetricOptions).value :=
  ⟨by decide, kind_fixed_value_merged _ "n" _ _ (by decide)⟩

/-- Iterating single-identity Counter updates over an entry already present
accumulates the sum of the supplied values onto it. -/
theorem counter_accumulate (name : String) (tags : Option Tags) :
    ∀ (vs : List Int) (m : MetricsSet) (e : MetricOptions),
      msGet m (customKey name tags) = some e →
      ∃ e', msGet (runUpdates m
            (vs.map (fun v => [(name, ⟨name, MetricsType.INCREMENT, v, tags⟩)])))
          (customKey name tags) = some e'
        ∧ e'.value = e.value + vs.sum ∧ e'.type = e.type := by
  intro vs
  induction vs with
  | nil =>
      intro m e h
      exact ⟨e, h, by simp, rfl⟩
  | cons v rest ih =>
      intro m e h
      have h1 : msGet (addOrUpdateOne m name ⟨name, MetricsType.INCREMENT, v, tags⟩)
          (customKey name tags) = some ⟨name, e.type, e.value + v, some (spreadTags tags)⟩ :=
        addOrUpdateOne_get_present h
      obtain ⟨e', hg, hv, ht⟩ :=
        ih (addOrUpdateOne m name ⟨name, MetricsType.INCREMENT, v, tags⟩) _ h1
      refine ⟨e', hg, ?_, ht⟩
      rw [hv]
      simp only [MetricOptions.value, List.sum_cons]
      ring

/-- C6: a sequence of Counter updates for one fresh (name, tags) identity
(no flush in between) leaves the entry's value equal to the arithmetic sum
of all supplied values, with kind Counter. -/
theorem counter_updates_sum (name : String) (tags : Option Tags) (vs : List Int)
    (m : MetricsSet) (habs : msGet m (customKey name tags) = none) (hne : vs ≠ []) :
    ∃ e, msGet (runUpdates m
          (vs.map (fun v => [(name, ⟨name, MetricsType.INCREMENT, v, tags⟩)])))
        (customKey name tags) = some e
      ∧ e.value = vs.sum ∧ e.type = MetricsType.INCREMENT := by
  cases vs with
  | nil => exact absurd rfl hne
  | cons v rest =>
      have h1 : msGet (addOrUpdateOne m name ⟨name, MetricsType.INCREMENT, v, tags⟩)
          (customKey name tags) = some ⟨name, MetricsType.INCREMENT, v, tags⟩ :=
        addOrUpdateOne_get_absent habs
      obtain ⟨e', hg, hv, ht⟩ :=
        counter_accumulate name tags rest
          (addOrUpdateOne m name ⟨name, MetricsType.INCREMENT, v, tags⟩) _ h1
      refine ⟨e', hg, ?_, ht⟩
      rw [hv]
      simp [MetricOptions.value, List.sum_cons]

/-- Witness for C6: three Counter updates of 1, 2, 3 sum to 6. -/
theorem counter_updates_sum_witness :
    msGet [] (customKey "reqs" none) = none
    ∧ (([1, 2, 3] : List Int) ≠ [])
    ∧ ∃ e, msGet (runUpdates []
          (([1, 2, 3] : List Int).map
            (fun v => [("reqs", ⟨"reqs", MetricsType.INCREMENT, v, none⟩)])))
        (customKey "reqs" none) = some e
      ∧ e.value = ([1, 2, 3] : List Int).sum ∧ e.type = MetricsType.INCREMENT :=
  ⟨rfl, by decide, counter_updates_sum "reqs" none [1, 2, 3] [] rfl (by decide)⟩

/-- C3 counterexample: two updates with identical name "m" and the same
tag pairs in different insertion orders end up as two separate ledger
entries (the first still holding value 1, not a merged 2). -/
theorem tag_order_cex :
    (runUpdates []
        [[("m", ⟨"m", MetricsType.INCREMENT, 1, some [("a", "1"), ("b", "2")]⟩)],
         [("m", ⟨"m", MetricsType.INCREMENT, 1, some [("b", "2"), ("a", "1")]⟩)]]).length = 2
    ∧ (msGet (runUpdates []
        [[("m", ⟨"m", MetricsType.INCREMENT, 1, some [("a", "1"), ("b", "2")]⟩)],
         [("m", ⟨"m", MetricsType.INCREMENT, 1, some [("b", "2"), ("a", "1")]⟩)]])
      (customKey "m" (some [("a", "1"), ("b", "2")]))).map MetricOptions.value = some 1 := by
  decide

/-- C3 (amended): identity derivation serializes the tag map in insertion
order, so two updates with the same name whose tag maps serialize
differently (in particular, the same pairs in different orders) resolve to
two different identities and are kept as two separate ledger entries, each
with its own un-merged value. -/
theorem distinct_tag_serialization_splits (name : String) (o1 o2 : MetricOptions)
    (h : stringifyTags o1.tags ≠ stringifyTags o2.tags) :
    customKey name o1.tags ≠ customKey name o2.tags
    ∧ msGet (addOrUpdateMetrics [] [(name, o1), (name, o2)]) (customKey name o1.tags)
        = some ⟨name, o1.type, o1.value, o1.tags⟩
    ∧ msGet (addOrUpdateMetrics [] [(name, o1), (name, o2)]) (customKey name o2.tags)
        = some ⟨name, o2.type, o2.value, o2.tags⟩ := by
  have hk : customKey name o1.tags ≠ customKey name o2.tags :=
    fun he => h (customKey_inj he)
  have h1 : addOrUpdateOne [] name o1
      = msSet [] (customKey name o1.tags) ⟨name, o1.type, o1.value, o1.tags⟩ :=
    addOrUpdateOne_absent rfl
  have hget2 : msGet (addOrUpdateOne [] name o1) (customKey name o2.tags) = none := by
    rw [h1, msGet_msSet_ne _ _ (Ne.symm hk)]
    rfl
  have h2 : addOrUpdateOne (addOrUpdateOne [] name o1) name o2
      = msSet (addOrUpdateOne [] name o1) (customKey name o2.tags)
          ⟨name, o2.type, o2.value, o2.tags⟩ :=
    addOrUpdateOne_absent hget2
  refine ⟨hk, ?_, ?_⟩
  · show msGet (addOrUpdateOne (addOrUpdateOne [] name o1) name o2) (customKey name o1.tags) = _
    rw [h2, msGet_msSet_ne _ _ hk, h1, msGet_msSet_self]
  · show msGet (addOrUpdateOne (addOrUpdateOne [] name o1) name o2) (customKey name o2.tags) = _
    rw [h2, msGet_msSet_self]

/-- Witness for C3's amended theorem at the spec's `a/b` example. -/
theorem distinct_tag_serialization_splits_witness :
    stringifyTags (some [("a", "1"), ("b", "2")]) ≠ stringifyTags (some [("b", "2"), ("a", "1")])
    ∧ (customKey "m" (some [("a", "1"), ("b", "2")]) ≠ customKey "m" (some [("b", "2"), ("a", "1")])
      ∧ msGet (addOrUpdateMetrics []
            [("m", ⟨"m", MetricsType.INCREMENT, 1, some [("a", "1"), ("b", "2")]⟩),
             ("m", ⟨"m", MetricsType.INCREMENT, 1, some [("b", "2"), ("a", "1")]⟩)])
          (customKey "m" (some [("a", "1"), ("b", "2")]))
          = some ⟨"m", MetricsType.INCREMENT, 1, some [("a", "1"), ("b", "2")]⟩
      ∧ msGet (addOrUpdateMetrics []
            [("m", ⟨"m", MetricsType.INCREMENT, 1, some [("a", "1"), ("b", "2")]⟩),
             ("m", ⟨"m", MetricsType.INCREMENT, 1, some [("b", "2"), ("a", "1")]⟩)])
          (customKey "m" (some [("b", "2"), ("a", "1")]))
          = some ⟨"m", MetricsType.INCREMENT, 1, some [("b", "2"), ("a", "1")]⟩) :=
  ⟨by decide,
    distinct_tag_serialization_splits "m"
      ⟨"m", MetricsType.INCREMENT, 1, some [("a", "1"), ("b", "2")]⟩
      ⟨"m", MetricsType.INCREMENT, 1, some [("b", "2"), ("a", "1")]⟩ (by decide)⟩

theorem length_msSet_of_not_has {m : MetricsSet} {k : String} (v : MetricOptions)
    (h : msHas m k = false) : (msSet m k v).length = m.length + 1 := by
  simp [msSet, h]

/-- C10: for any metric name (and any kinds and values), an update that
omits the tags field and an update with the empty tag map produce two
distinct identities ("name/undefined" vs "name/\x7b\x7d"), hence two
separate ledger entries, each retrievable under its own key. -/
theorem absent_vs_empty_tags_distinct (name : String) (t1 t2 : MetricsType) (v1 v2 : Int) :
    customKey name none ≠ customKey name (some [])
    ∧ (addOrUpdateMetrics []
        [(name, ⟨name, t1, v1, none⟩), (name, ⟨name, t2, v2, some []⟩)]).length = 2
    ∧ msGet (addOrUpdateMetrics []
          [(name, ⟨name, t1, v1, none⟩), (name, ⟨name, t2, v2, some []⟩)])
        (customKey name none) = some ⟨name, t1, v1, none⟩
    ∧ msGet (addOrUpdateMetrics []
          [(name, ⟨name, t1, v1, none⟩), (name, ⟨name, t2, v2, some []⟩)])
        (customKey name (some [])) = some ⟨name, t2, v2, some []⟩ := by
  have hk : customKey name none ≠ customKey name (some []) := by
    intro he
    exact absurd (customKey_inj he) (by decide)
  have h1 : addOrUpdateOne [] name ⟨name, t1, v1, none⟩
      = msSet [] (customKey name none) ⟨name, t1, v1, none⟩ :=
    addOrUpdateOne_absent rfl
  have hget2 : msGet (addOrUpdateOne [] name ⟨name, t1, v1, none⟩)
      (customKey name (some [])) = none := by
    rw [h1, msGet_msSet_ne _ _ (Ne.symm hk)]
    rfl
  have h2 : addOrUpdateOne (addOrUpdateOne [] name ⟨name, t1, v1, none⟩) name ⟨name, t2, v2, some []⟩
      = msSet (addOrUpdateOne [] name ⟨name, t1, v1, none⟩) (customKey name (some []))
          ⟨name, t2, v2, some []⟩ :=
    addOrUpdateOne_absent hget2
  refine ⟨hk, ?_, ?_, ?_⟩
  · show (addOrUpdateOne (addOrUpdateOne [] name ⟨name, t1, v1, none⟩) name
        ⟨name, t2, v2, some []⟩).length = 2
    have hh2 : msHas (addOrUpdateOne [] name ⟨name, t1, v1, none⟩)
        (customKey name (some [])) = false := by
      rw [msHas_eq_isSome, hget2]
      rfl
    have hh1 : msHas ([] : MetricsSet) (customKey name none) = false := rfl
    rw [h2, length_msSet_of_not_has _ hh2, h1, length_msSet_of_not_has _ hh1]
    rfl
  · show msGet (addOrUpdateOne (addOrUpdateOne [] name ⟨name, t1, v1, none⟩) name
        ⟨name, t2, v2, some []⟩) (customKey name none) = _
    rw [h2, msGet_msSet_ne _ _ hk, h1, msGet_msSet_self]
  · show msGet (addOrUpdateOne (addOrUpdateOne [] name ⟨name, t1, v1, none⟩) name
        ⟨name, t2, v2, some []⟩) (customKey name (some [])) = _
    rw [h2, msGet_msSet_self]

/-- C4 counterexample: with two pending Counter entries and a transport
whose calls throw, the flush attempts only the first emit, aborts, and the
second entry is neither emitted nor reset (its value is still 5). -/
theorem flush_failure_cex :
    (sendStats (fun _ => false)
        [("a/undefined", ⟨"a", MetricsType.INCREMENT, 3, none⟩),
         ("b/undefined", ⟨"b", MetricsType.INCREMENT, 5, none⟩)]).emits
      = [EmitCall.increment "a" 3 []]
    ∧ (sendStats (fun _ => false)
        [("a/undefined", ⟨"a", MetricsType.INCREMENT, 3, none⟩),
         ("b/undefined", ⟨"b", MetricsType.INCREMENT, 5, none⟩)]).aborted = true
    ∧ (msGet (sendStats (fun _ => false)
        [("a/undefined", ⟨"a", MetricsType.INCREMENT, 3, none⟩),
         ("b/undefined", ⟨"b", MetricsType.INCREMENT, 5, none⟩)]).metrics
      "b/undefined").map MetricOptions.value = some 5 := by
  decide

/-- C4 (amended): when the transport call for an entry throws, the flush
cycle aborts at that entry: whatever entries remain after it are not
processed at all (no emit attempted, no reset), and the ledger is left as
it was at the moment of the throw. -/
theorem flush_throw_aborts (ok : EmitCall → Bool) (k : String) (o : MetricOptions)
    (rest : List (String × MetricOptions)) (live : MetricsSet) (acc : List EmitCall)
    (h : ok (emitCallOf o) = false) :
    sendStatsAux ok ((k, o) :: rest) live acc
      = ⟨live, (emitCallOf o :: acc).reverse, true⟩ := by
  cases hot : o.type with
  | GAUGE =>
      simp only [emitCallOf, hot, if_pos] at h
      simp [sendStatsAux, emitCallOf, hot, h]
  | INCREMENT =>
      simp only [emitCallOf, hot] at h
      rw [if_neg (by decide)] at h
      simp [sendStatsAux, emitCallOf, hot, h]

/-- Witness for C4's amended theorem: a throwing first emit with one more
entry pending. -/
theorem flush_throw_aborts_witness :
    ((fun _ : EmitCall => false) (emitCallOf ⟨"a", MetricsType.INCREMENT, 3, none⟩) = false)
    ∧ sendStatsAux (fun _ => false)
        [("a/undefined", ⟨"a", MetricsType.INCREMENT, 3, none⟩),
         ("b/undefined", ⟨"b", MetricsType.INCREMENT, 5, none⟩)]
        [("a/undefined", ⟨"a", MetricsType.INCREMENT, 3, none⟩),
         ("b/undefined", ⟨"b", MetricsType.INCREMENT, 5, none⟩)] []
      = ⟨[("a/undefined", ⟨"a", MetricsType.INCREMENT, 3, none⟩),
          ("b/undefined", ⟨"b", MetricsType.INCREMENT, 5, none⟩)],
         (emitCallOf ⟨"a", MetricsType.INCREMENT, 3, none⟩ :: []).reverse, true⟩ :=
  ⟨rfl,
    flush_throw_aborts (fun _ => false) "a/undefined" ⟨"a", MetricsType.INCREMENT, 3, none⟩
      [("b/undefined", ⟨"b", MetricsType.INCREMENT, 5, none⟩)]
      [("a/undefined", ⟨"a", MetricsType.INCREMENT, 3, none⟩),
       ("b/undefined", ⟨"b", MetricsType.INCREMENT, 5, none⟩)] [] rfl⟩

/-- C5 counterexample: with an all-throwing transport, after the flush the
Counter entry under key "b/undefined" still has value 5, not 0 — so
Counter values are not zero after a flush whose emits failed by throwing. -/
theorem counter_reset_failure_cex :
    (msGet (sendStats (fun _ => false)
        [("a/undefined", ⟨"a", MetricsType.INCREMENT, 3, none⟩),
         ("b/undefined", ⟨"b", MetricsType.INCREMENT, 5, none⟩)]).metrics
      "b/undefined").map MetricOptions.type = some MetricsType.INCREMENT
    ∧ (msGet (sendStats (fun _ => false)
        [("a/undefined", ⟨"a", MetricsType.INCREMENT, 3, none⟩),
         ("b/undefined", ⟨"b", MetricsType.INCREMENT, 5, none⟩)]).metrics
      "b/undefined").map MetricOptions.value = some 5
    ∧ ¬ ((msGet (sendStats (fun _ => false)
        [("a/undefined", ⟨"a", MetricsType.INCREMENT, 3, none⟩),
         ("b/undefined", ⟨"b", MetricsType.INCREMENT, 5, none⟩)]).metrics
      "b/undefined").map MetricOptions.value = some 0) := by
  decide

/-- Invariant carried through the flush iteration: if every nonzero
Counter entry of the live map still has a Counter-typed snapshot entry
pending under its key, then after a non-aborting run every Counter entry
of the final map is zero. -/
theorem sendStatsAux_counters_zero (ok : EmitCall → Bool) :
    ∀ (snap : List (String × MetricOptions)) (live : MetricsSet) (acc : List EmitCall),
      (sendStatsAux ok snap live acc).aborted = false →
      (∀ p ∈ live, p.2.type = MetricsType.INCREMENT → p.2.value = 0
        ∨ ∃ o', (p.1, o') ∈ snap ∧ o'.type = MetricsType.INCREMENT) →
      ∀ q ∈ (sendStatsAux ok snap live acc).metrics,
        q.2.type = MetricsType.INCREMENT → q.2.value = 0 := by
  intro snap
  induction snap with
  | nil =>
      intro live acc _ hinv q hq hqt
      simp only [sendStatsAux] at hq
      rcases hinv q hq hqt with h0 | ⟨o', ho', _⟩
      · exact h0
      · exact absurd ho' (List.not_mem_nil _)
  | cons hd rest ih =>
      intro live acc hab hinv q hq hqt
      obtain ⟨k0, oh⟩ := hd
      cases hot : oh.type with
      | GAUGE =>
          cases hoc : ok (EmitCall.gauge oh.metricName oh.value (spreadTags oh.tags)) with
          | false =>
              have hstep : sendStatsAux ok ((k0, oh) :: rest) live acc
                  = ⟨live, (EmitCall.gauge oh.metricName oh.value (spreadTags oh.tags) :: acc).reverse,
                      true⟩ := by
                simp [sendStatsAux, hot, hoc]
              rw [hstep] at hab
              simp at hab
          | true =>
              have hstep : sendStatsAux ok ((k0, oh) :: rest) live acc
                  = sendStatsAux ok rest live
                      (EmitCall.gauge oh.metricName oh.value (spreadTags oh.tags) :: acc) := by
                simp [sendStatsAux, hot, hoc]
              rw [hstep] at hab hq
              refine ih live _ hab ?_ q hq hqt
              intro p hp hpt
              rcases hinv p hp hpt with h0 | ⟨o', ho', hot'⟩
              · exact Or.inl h0
              · rcases List.mem_cons.mp ho' with heq | hmem
                · injection heq with he1 he2
                  rw [he2, hot] at hot'
                  exact absurd hot' (by decide)
                · exact Or.inr ⟨o', hmem, hot'⟩
      | INCREMENT =>
          cases hoc : ok (EmitCall.increment oh.metricName oh.value (spreadTags oh.tags)) with
          | false =>
              have hstep : sendStatsAux ok ((k0, oh) :: rest) live acc
                  = ⟨live, (EmitCall.increment oh.metricName oh.value (spreadTags oh.tags) :: acc).reverse,
                      true⟩ := by
                simp [sendStatsAux, hot, hoc]
              rw [hstep] at hab
              simp at hab
          | true =>
              have hstep : sendStatsAux ok ((k0, oh) :: rest) live acc
                  = sendStatsAux ok rest (resetIncrementMetric live k0 oh.metricName)
                      (EmitCall.increment oh.metricName oh.value (spreadTags oh.tags) :: acc) := by
                simp [sendStatsAux, hot, hoc]
              rw [hstep] at hab hq
              refine ih _ _ hab ?_ q hq hqt
              intro p hp hpt
              rcases mem_reset hp with ⟨_, h0⟩ | ⟨hmem, hne⟩
              · exact Or.inl h0
              · rcases hinv p hmem hpt with h0 | ⟨o', ho', hot'⟩
                · exact Or.inl h0
                · rcases List.mem_cons.mp ho' with heq | hm2
                  · injection heq with he1 he2
                    exact absurd he1 hne
                  · exact Or.inr ⟨o', hm2, hot'⟩

/-- C5 (amended): after a flush cycle in which no transport call threw
(the cycle did not abort), every Counter entry's value is exactly zero,
independent of its value before the flush; when a call does throw, the
cycle aborts and the counters at and after the failing entry keep their
values (see the counterexample). -/
theorem counters_zero_after_clean_flush (ok : EmitCall → Bool) (m : MetricsSet)
    (hab : (sendStats ok m).aborted = false) :
    ∀ p ∈ (sendStats ok m).metrics, p.2.type = MetricsType.INCREMENT → p.2.value = 0 := by
  intro p hp hpt
  refine sendStatsAux_counters_zero ok m m [] hab ?_ p hp hpt
  intro q hq hqt
  exact Or.inr ⟨q.2, by simpa using hq, hqt⟩

/-- Witness for C5's amended theorem: a Counter of value 3 is reset to 0
by a clean flush. -/
theorem counters_zero_after_clean_flush_witness :
    (sendStats (fun _ => true)
        [("a/undefined", ⟨"a", MetricsType.INCREMENT, 3, none⟩)]).aborted = false
    ∧ ("a/undefined", (⟨"a", MetricsType.INCREMENT, 0, some []⟩ : MetricOptions))
        ∈ (sendStats (fun _ => true)
            [("a/undefined", ⟨"a", MetricsType.INCREMENT, 3, none⟩)]).metrics
    ∧ ("a/undefined", (⟨"a", MetricsType.INCREMENT, 0, some []⟩ : MetricOptions)).2.value = 0 :=
  ⟨by decide, by decide,
    counters_zero_after_clean_flush (fun _ => true)
      [("a/undefined", ⟨"a", MetricsType.INCREMENT, 3, none⟩)] (by decide)
      ("a/undefined", ⟨"a", MetricsType.INCREMENT, 0, some []⟩) (by decide) (by decide)⟩

/-- Gauge entries of the live map survive the flush iteration untouched as
long as no pending snapshot entry of Counter kind shares their key. -/
theorem sendStatsAux_gauge_preserved (ok : EmitCall → Bool) {k : String} {o : MetricOptions} :
    ∀ (snap : List (String × MetricOptions)) (live : MetricsSet) (acc : List EmitCall),
      (∀ p ∈ snap, p.2.type = MetricsType.INCREMENT → p.1 ≠ k) →
      msGet live k = some o →
      msGet (sendStatsAux ok snap live acc).metrics k = some o := by
  intro snap
  induction snap with
  | nil =>
      intro live acc _ hlive
      simpa [sendStatsAux] using hlive
  | cons hd rest ih =>
      intro live acc hsnap hlive
      obtain ⟨k0, oh⟩ := hd
      cases hot : oh.type with
      | GAUGE =>
          cases hoc : ok (EmitCall.gauge oh.metricName oh.value (spreadTags oh.tags)) with
          | false =>
              have hstep : sendStatsAux ok ((k0, oh) :: rest) live acc
                  = ⟨live, (EmitCall.gauge oh.metricName oh.value (spreadTags oh.tags) :: acc).reverse,
                      true⟩ := by
                simp [sendStatsAux, hot, hoc]
              rw [hstep]
              exact hlive
          | true =>
              have hstep : sendStatsAux ok ((k0, oh) :: rest) live acc
                  = sendStatsAux ok rest live
                      (EmitCall.gauge oh.metricName oh.value (spreadTags oh.tags) :: acc) := by
                simp [sendStatsAux, hot, hoc]
              rw [hstep]
              exact ih live _ (fun p hp => hsnap p (List.mem_cons_of_mem _ hp)) hlive
      | INCREMENT =>
          have hk0 : k0 ≠ k := hsnap (k0, oh) (List.mem_cons_self _ _) hot
          cases hoc : ok (EmitCall.increment oh.metricName oh.value (spreadTags oh.tags)) with
          | false =>
              have hstep : sendStatsAux ok ((k0, oh) :: rest) live acc
                  = ⟨live, (EmitCall.increment oh.metricName oh.value (spreadTags oh.tags) :: acc).reverse,
                      true⟩ := by
                simp [sendStatsAux, hot, hoc]
              rw [hstep]
              exact hlive
          | true =>
              have hstep : sendStatsAux ok ((k0, oh) :: rest) live acc
                  = sendStatsAux ok rest (resetIncrementMetric live k0 oh.metricName)
                      (EmitCall.increment oh.metricName oh.value (spreadTags oh.tags) :: acc) := by
                simp [sendStatsAux, hot, hoc]
              rw [hstep]
              refine ih _ _ (fun p hp => hsnap p (List.mem_cons_of_mem _ hp)) ?_
              rw [msGet_reset_ne live k0 _ (Ne.symm hk0)]
              exact hlive

/-- C7: a flush cycle (with any transport outcome, throwing or not) leaves
every Gauge entry's stored value unchanged: the entry is retrieved
afterwards exactly as it was before. -/
theorem gauge_unchanged_by_flush (ok : EmitCall → Bool) (m : MetricsSet) (k : String)
    (o : MetricOptions) (hnd : msNodupKeys m) (hget : msGet m k = some o)
    (hty : o.type = MetricsType.GAUGE) :
    msGet (sendStats ok m).metrics k = some o := by
  refine sendStatsAux_gauge_preserved ok m m [] ?_ hget
  intro p hp hpt hpk
  have hpo := msGet_unique hnd hget p hp hpk
  rw [hpo, hty] at hpt
  exact absurd hpt (by decide)

/-- Witness for C7: a Gauge of value 7 survives a clean flush that also
resets a neighbouring Counter. -/
theorem gauge_unchanged_by_flush_witness :
    msNodupKeys [("g/undefined", ⟨"g", MetricsType.GAUGE, 7, none⟩),
        ("c/undefined", ⟨"c", MetricsType.INCREMENT, 3, none⟩)]
    ∧ msGet [("g/undefined", ⟨"g", MetricsType.GAUGE, 7, none⟩),
        ("c/undefined", ⟨"c", MetricsType.INCREMENT, 3, none⟩)] "g/undefined"
      = some ⟨"g", MetricsType.GAUGE, 7, none⟩
    ∧ (⟨"g", MetricsType.GAUGE, 7, none⟩ : MetricOptions).type = MetricsType.GAUGE
    ∧ msGet (sendStats (fun _ => true)
        [("g/undefined", ⟨"g", MetricsType.GAUGE, 7, none⟩),
         ("c/undefined", ⟨"c", MetricsType.INCREMENT, 3, none⟩)]).metrics "g/undefined"
      = some ⟨"g", MetricsType.GAUGE, 7, none⟩ :=
  ⟨by decide, by decide, rfl,
    gauge_unchanged_by_flush (fun _ => true)
      [("g/undefined", ⟨"g", MetricsType.GAUGE, 7, none⟩),
       ("c/undefined", ⟨"c", MetricsType.INCREMENT, 3, none⟩)]
      "g/undefined" ⟨"g", MetricsType.GAUGE, 7, none⟩ (by decide) (by decide) rfl⟩

/-- C8 counterexample: after a first successful `init` (designator
"production") has created the singleton, a later `init` whose designator
is absent returns nothing rather than the existing instance — so "every
later init call (with any arguments)" does not return the instance. -/
theorem init_any_args_cex :
    (init 600000 none (init 600000 (some "production") ⟨none, 0, 0⟩).2).1 = none
    ∧ (init 600000 (some "production") ⟨none, 0, 0⟩).2.inst.isSome = true := by
  decide

/-- C8 (amended): once the singleton exists, any later `init` call leaves
the process state unchanged — no second ledger, transport client, or flush
timer is created — and a later call with a truthy designator returns the
same existing instance (one with a falsy designator returns nothing). -/
theorem init_reentrant_same_instance (timerInMs : Nat) (environement : Option String)
    (g : GlobalState) (i : StatsClientInst) (h : g.inst = some i) :
    (init timerInMs environement g).2 = g
    ∧ (truthy environement = true → (init timerInMs environement g).1 = some i) := by
  cases ht : truthy environement with
  | false => simp [init, ht]
  | true => simp [init, ht, h]

/-- Witness for C8's amended theorem: a second `init` with a different
interval and designator on an already-initialized state. -/
theorem init_reentrant_same_instance_witness :
    (⟨some ⟨[], 600000, true⟩, 1, 1⟩ : GlobalState).inst = some ⟨[], 600000, true⟩
    ∧ ((init 300000 (some "development") ⟨some ⟨[], 600000, true⟩, 1, 1⟩).2
        = ⟨some ⟨[], 600000, true⟩, 1, 1⟩
      ∧ (truthy (some "development") = true →
          (init 300000 (some "development") ⟨some ⟨[], 600000, true⟩, 1, 1⟩).1
            = some ⟨[], 600000, true⟩)) :=
  ⟨rfl,
    init_reentrant_same_instance 300000 (some "development")
      ⟨some ⟨[], 600000, true⟩, 1, 1⟩ ⟨[], 600000, true⟩ rfl⟩

end StatsTs
